import Mathlib

/-!
Verification of the byterun object model (`byterun/pyobj.py`).

The definitions below are a shallow embedding of the Python source.  Classes
are identified by natural numbers in the MRO section; runtime values are an
inductive `Value` type; mutable cells are an explicit store indexed by
natural-number cell identifiers; the external dispatch loop (`vm.run_frame`,
`vm.resume_frame`) is passed in as a function parameter where the embedded
code calls into it.  The class/instance model of the source lives in an
`if PY2:` block, so its embedding fixes the PY2 behavior of `Function.__get__`.
-/

set_option autoImplicit false

/-! ## C3 linearization (`Class.mro_merge`, `Class._compute_mro`, lines 120-155)

Classes are identified by natural numbers.  `mro_merge` embeds the loop of
`Class.mro_merge`: repeatedly pick the first head among the nonempty
sequences that does not occur in the tail of any sequence, append it to the
result and drop it from every head; if no head qualifies, raise
`TypeError("Illegal inheritance.")`.  The Lean embedding drives the loop with
fuel; `totalLen seqs + 1` units of fuel always suffice because every
iteration removes at least one element (theorem `mro_merge_no_fuel_error`
below), so the `outOfFuel` outcome is unreachable from `mro_merge`.
-/

/-- Error outcomes of the merge loop: `illegal` is the
`TypeError("Illegal inheritance.")` raised by the source; `outOfFuel` is an
artifact of the fuel-driven embedding, proved unreachable below. -/
inductive MroErr where
  | illegal : MroErr
  | outOfFuel : MroErr
deriving DecidableEq

/-- Candidate test of `mro_merge`: `cand` qualifies when it is in the tail of
no sequence (`nothead` is empty).  Empty sequences have empty tails, so
testing against all sequences coincides with testing against the nonempty
ones, as the source does. -/
def goodHead (seqs : List (List Nat)) (c : Nat) : Bool :=
  seqs.all (fun s => !(s.tail.contains c))

/-- Candidate search of `mro_merge`: the heads of the nonempty sequences are
scanned in order and the first one passing `goodHead` is chosen (lines
132-138). -/
def findCand (seqs : List (List Nat)) : Option Nat :=
  (seqs.filterMap List.head?).find? (goodHead seqs)

/-- Removal step of `mro_merge` (lines 142-144): drop the chosen candidate
from the head of every sequence it heads. -/
def removeCand (c : Nat) (seqs : List (List Nat)) : List (List Nat) :=
  seqs.map (fun s => if s.head? = some c then s.tail else s)

/-- Total number of elements across all sequences; the fuel measure. -/
def totalLen (seqs : List (List Nat)) : Nat :=
  (seqs.map List.length).sum

/-- The loop of `Class.mro_merge` (lines 127-144), driven by fuel. -/
def mro_merge_fuel : Nat → List Nat → List (List Nat) → Except MroErr (List Nat)
  | 0, _, _ => .error .outOfFuel
  | Nat.succ fuel, res, seqs =>
    if seqs.all List.isEmpty then .ok res
    else
      match findCand seqs with
      | none => .error .illegal
      | some cand => mro_merge_fuel fuel (res ++ [cand]) (removeCand cand seqs)

/-- `Class.mro_merge(seqs)` (lines 120-144). -/
def mro_merge (seqs : List (List Nat)) : Except MroErr (List Nat) :=
  mro_merge_fuel (totalLen seqs + 1) [] seqs

/-- `Class._compute_mro(c)` (lines 146-155): merge `[[c]]`, the mro of each
base, and the list of bases itself. -/
def compute_mro (c : Nat) (baseMros : List (List Nat)) (bases : List Nat) :
    Except MroErr (List Nat) :=
  mro_merge ([[c]] ++ baseMros ++ [bases])

/-- The mro computation performed by `Class.__init__` (line 97): each base is
given as a pair of its identifier and its already-computed mro, exactly the
data `_compute_mro` reads from `base.__mro__` and `c.__bases__`.  The class
object only comes into existence when this computation succeeds; a merge
failure propagates out of `__init__` as the `TypeError`. -/
def Class_init_mro (c : Nat) (bases : List (Nat × List Nat)) : Except MroErr (List Nat) :=
  compute_mro c (bases.map Prod.snd) (bases.map Prod.fst)

/-! ## Runtime values

`Value` models the Python values the object model manipulates.  `vfun fid`
is a byterun `Function` identified by `fid` (its bytecode body is run by the
external dispatch loop and is opaque here); `vmeth` is a `Method` with its
`im_self`, `im_class` and `im_func` fields (`im_self` is `vnone` for an
unbound method); `vdesc g s did` models a host descriptor object exposing a
`__get__` capability when `g` and a `__set__` capability when `s`;
`vcallGet val a b` is the opaque result of invoking `val.__get__(a, b)` on a
non-`Function` descriptor (the invocation runs host or user code the
dispatch loop would execute, so only the callee and arguments are recorded);
`vmodule d` models a host module object whose `__dict__` is `d`; `vdict` a
host dict; `vclass name mro` a byterun `Class` whose `__mro__` is `mro`,
each mro entry being a pair of a class name and that ancestor class's
`locals` mapping (exactly the data `resolve_attr` reads); `vobj` a byterun
`Object` carrying its class and its per-instance `locals`. -/
inductive Value : Type where
  | vnone : Value
  | vint : Int → Value
  | vstr : String → Value
  | vfun : Nat → Value
  | vmeth : Value → Value → Nat → Value
  | vdesc : Bool → Bool → Nat → Value
  | vcallGet : Value → Value → Value → Value
  | vmodule : List (String × Value) → Value
  | vdict : List (String × Value) → Value
  | vclass : String → List (String × List (String × Value)) → Value
  | vobj : String → List (String × List (String × Value)) → List (String × Value) → Value

/-- The mro of a byterun class, as read by `resolve_attr`: each ancestor as a
pair of its name and its `locals` attribute mapping. -/
abbrev Mro := List (String × List (String × Value))

/-- Python dict read, first matching key (keys are unique in a dict). -/
def dictGet {β : Type} : List (String × β) → String → Option β
  | [], _ => none
  | (k, v) :: rest, name => if k = name then some v else dictGet rest name

/-- Python dict write: replace the entry for the key or append a new one. -/
def dictSet {β : Type} : List (String × β) → String → β → List (String × β)
  | [], k, v => [(k, v)]
  | (k1, v1) :: rest, k, v =>
    if k1 = k then (k, v) :: rest else (k1, v1) :: dictSet rest k v

/-- `Class.resolve_attr` (lines 157-172): scan the mro in order and return
the first raw `locals` entry holding the name; `none` models the
`AttributeError`.  (The source also accepts host classes in the mro via
`base.__dict__`; the embedded mro entries all carry their mapping the same
way.) -/
def resolve_attr : Mro → String → Option Value
  | [], _ => none
  | (_, locs) :: rest, name =>
    match dictGet locs name with
    | some v => some v
    | none => resolve_attr rest name

/-- `Function.__get__` (lines 55-61).  `py2` is the `six.PY2` flag: with an
instance the function binds into a `Method`; with no instance it yields an
unbound `Method` under PY2 and the function itself under PY3. -/
def Function_get (py2 : Bool) (fid : Nat) (inst owner : Value) : Value :=
  match inst with
  | .vnone => if py2 then .vmeth .vnone owner fid else .vfun fid
  | _ => .vmeth inst owner fid

/-- Which values expose a `__get__` capability, as the `hasattr(val,
"__get__")` checks of lines 109, 197 and 209 observe it: a byterun
`Function` defines `__get__`; a host descriptor exposes it when built with
it; for a byterun `Class` the `hasattr` probe runs `Class.__getattr__`,
which succeeds exactly when `resolve_attr` finds the name; for a byterun
`Object` it runs `Object.__getattr__`, which succeeds exactly when the class
resolves the name or the instance storage holds it.  Host ints, strings,
dicts, modules, `None` and `Method` objects expose no `__get__`; the opaque
result of a descriptor invocation is modelled as exposing none. -/
def hasGet : Value → Bool
  | .vfun _ => true
  | .vdesc g _ _ => g
  | .vclass _ mro => (resolve_attr mro "__get__").isSome
  | .vobj _ mro locs => (resolve_attr mro "__get__").isSome || (dictGet locs "__get__").isSome
  | _ => false

/-- Which values expose a `__set__` capability, mirroring `hasattr(val,
"__set__")` on line 197; a byterun `Function` defines no `__set__`. -/
def hasSet : Value → Bool
  | .vdesc _ s _ => s
  | .vclass _ mro => (resolve_attr mro "__set__").isSome
  | .vobj _ mro locs => (resolve_attr mro "__set__").isSome || (dictGet locs "__set__").isSome
  | _ => false

/-- Invocation `val.__get__(a, b)`.  For a byterun `Function` this is
`Function.__get__` with `py2 = true` (the class/instance model that performs
these invocations exists only under the `if PY2:` block); for every other
descriptor the invocation runs code outside this model and its result is
recorded opaquely as `vcallGet val a b`, which in particular records the two
arguments the descriptor receives. -/
def dunder_get (val a b : Value) : Value :=
  match val with
  | .vfun fid => Function_get true fid a b
  | _ => .vcallGet val a b

/-- `Class.__getattr__` (lines 106-112): resolve the name raw along the mro;
if the result exposes `__get__`, invoke it as `val.__get__(None, self)` with
`self` the class; otherwise return the raw value.  `none` models the
`AttributeError` escaping from `resolve_attr`. -/
def Class_getattr (cname : String) (mro : Mro) (name : String) : Option Value :=
  (resolve_attr mro name).map
    (fun val => if hasGet val then dunder_get val .vnone (.vclass cname mro) else val)

/-- `Object.__getattr__` (lines 184-213), the four-case lookup:
1. the class resolves the name to a data descriptor
   (`__get__` and `__set__`): return `val.__get__(self, name)` — note the
   source passes the attribute name as the second argument here;
2. the name is in the per-instance storage `self.locals`: return it;
3. nothing was resolved at all: `AttributeError` (modelled as `none`);
4. the resolved value is a non-data descriptor: return
   `val.__get__(self, self._class)`; otherwise return the raw value. -/
def Object_getattr (cname : String) (mro : Mro) (locs : List (String × Value))
    (name : String) : Option Value :=
  match resolve_attr mro name with
  | some val =>
    if hasGet val && hasSet val then
      some (dunder_get val (.vobj cname mro locs) (.vstr name))
    else
      match dictGet locs name with
      | some v => some v
      | none =>
        if hasGet val then some (dunder_get val (.vobj cname mro locs) (.vclass cname mro))
        else some val
  | none => dictGet locs name

/-- The call a `Class.__call__` plus `Object.__init__` pair issues: callee,
positional arguments and keyword arguments handed to the dispatch loop. -/
structure CallSpec where
  callee : Value
  args : List Value
  kwargs : List (String × Value)

/-- `Object.__init__` (lines 174-179) as reached from `Class.__call__`
(lines 100-101): allocate the instance with empty per-instance storage, then
resolve `__init__` RAW along the mro via `resolve_attr` (no descriptor
`__get__` dispatch) and call it with the fresh instance prepended to the
positional arguments.  When `resolve_attr` raises `AttributeError`, the
exception propagates out of `__init__` and no initialized instance exists:
modelled as `none`. -/
def Object_init_call (cname : String) (mro : Mro) (args : List Value)
    (kwargs : List (String × Value)) : Option CallSpec :=
  match resolve_attr mro "__init__" with
  | none => none
  | some f => some ⟨f, Value.vobj cname mro [] :: args, kwargs⟩

/-! ## Cells and frame wiring (`Cell` lines 241-267, `Frame.__init__` lines 290-307)

A `Cell` is a mutable box; frames share cells by reference.  The embedding
makes the references explicit: a cell is a natural-number identifier into a
store `CellCtx`, a cell table maps variable names to identifiers, and
copying an identifier from one table to another is exactly the reference
copy `self.cells[var] = f_back.cells[var]` performs. -/

/-- The store of live cells: contents by identifier, plus the next fresh
identifier. -/
structure CellCtx where
  store : Nat → Value
  next : Nat

/-- `Cell.get` (lines 263-264). -/
def Cell_get (ctx : CellCtx) (cid : Nat) : Value :=
  ctx.store cid

/-- `Cell.set` (lines 266-267): updates the one shared box. -/
def Cell_set (ctx : CellCtx) (cid : Nat) (v : Value) : CellCtx :=
  ⟨fun i => if i = cid then v else ctx.store i, ctx.next⟩

/-- `Cell(value)` (lines 260-261): allocate a fresh cell holding `value`. -/
def Cell_new (ctx : CellCtx) (v : Value) : Nat × CellCtx :=
  (ctx.next, ⟨fun i => if i = ctx.next then v else ctx.store i, ctx.next + 1⟩)

/-- Cell-variable wiring of `Frame.__init__` (lines 290-297): for each name
in `co_cellvars` allocate a fresh `Cell` seeded with the local value of that
name (or `None` when unbound, via `f_locals.get(var)`), and publish the SAME
cell in this frame's table and in the caller's table. -/
def wire_cellvars : List String → List (String × Value) → List (String × Nat) →
    List (String × Nat) → CellCtx → List (String × Nat) × List (String × Nat) × CellCtx
  | [], _, selfCells, backCells, ctx => (selfCells, backCells, ctx)
  | v :: rest, locs, selfCells, backCells, ctx =>
    match Cell_new ctx ((dictGet locs v).getD .vnone) with
    | (cid, ctx1) =>
      wire_cellvars rest locs (dictSet selfCells v cid) (dictSet backCells v cid) ctx1

/-- Free-variable wiring of `Frame.__init__` (lines 301-307): for each name
in `co_freevars` copy the cell REFERENCE (the identifier, not the contents)
out of the caller's cell table.  A missing entry is the asserted
construction-time contract violation, modelled as `none`. -/
def wire_freevars : List String → List (String × Nat) → List (String × Nat) →
    Option (List (String × Nat))
  | [], _, selfCells => some selfCells
  | v :: rest, backCells, selfCells =>
    match dictGet backCells v with
    | none => none
    | some cid => wire_freevars rest backCells (dictSet selfCells v cid)

/-! ## Frame construction (`Frame.__init__` lines 274-288) -/

/-- The fields of a byterun `Frame` that the built-ins inheritance reads and
writes (lines 274-285): the namespaces, the chosen built-ins namespace and
the fresh value stack.  The back link is passed to the constructor rather
than stored, which is all the embedded lines consume of it. -/
structure Frame where
  f_globals : List (String × Value)
  f_locals : List (String × Value)
  f_builtins : Value
  stack : List Value

/-- Which values answer `hasattr(x, "__dict__")` in the built-ins unwrapping
on line 284: module-like objects do; the host ints, strings and dicts used
as namespaces here do not. -/
def hasDunderDict : Value → Bool
  | .vmodule _ => true
  | _ => false

/-- The `__dict__` of a module-like value (line 285). -/
def moduleDict : Value → Value
  | .vmodule d => .vdict d
  | v => v

/-- `Frame.__init__` lines 274-288: store the namespaces, start an empty
value stack, and choose the built-ins namespace — from the caller frame when
there is one, otherwise from the `__builtins__` entry of `f_locals`
(unwrapped to its `__dict__` when it is a module-like object).  A root frame
whose locals lack the entry raises `KeyError`: modelled as `none`. -/
def Frame_init (f_globals f_locals : List (String × Value)) (f_back : Option Frame) :
    Option Frame :=
  match f_back with
  | some back => some ⟨f_globals, f_locals, back.f_builtins, []⟩
  | none =>
    match dictGet f_locals "__builtins__" with
    | none => none
    | some b =>
      some ⟨f_globals, f_locals, if hasDunderDict b then moduleDict b else b, []⟩

/-! ## Line-number decoding (`Frame.line_number`, lines 317-334) -/

/-- Elements at even positions: the slice `lnotab[0::2]`. -/
def everySecond : List Nat → List Nat
  | [] => []
  | [x] => [x]
  | x :: _ :: rest => x :: everySecond rest

/-- The `(byte_increment, line_increment)` pairs: `zip(lnotab[0::2],
lnotab[1::2])`, truncating at the shorter slice as `zip` does. -/
def lnotab_pairs (lnotab : List Nat) : List (Nat × Nat) :=
  (everySecond lnotab).zip (everySecond lnotab.tail)

/-- The loop of `line_number` (lines 328-332): accumulate the byte offset,
stop as soon as it strictly exceeds `f_lasti`, otherwise advance the line
number. -/
def line_walk (f_lasti : Nat) : List (Nat × Nat) → Nat → Nat → Nat
  | [], _, line_num => line_num
  | (byte_incr, line_incr) :: rest, byte_num, line_num =>
    if byte_num + byte_incr > f_lasti then line_num
    else line_walk f_lasti rest (byte_num + byte_incr) (line_num + line_incr)

/-- `Frame.line_number` (lines 317-334): decode the delta table starting
from `co_firstlineno` at byte offset `0`. -/
def line_number (co_lnotab : List Nat) (co_firstlineno : Nat) (f_lasti : Nat) : Nat :=
  line_walk f_lasti (lnotab_pairs co_lnotab) 0 co_firstlineno

/-- Cumulative byte offsets: each pair becomes (absolute byte offset of the
entry, its line increment). -/
def cumPairs : List (Nat × Nat) → Nat → List (Nat × Nat)
  | [], _ => []
  | (b, l) :: rest, acc => (acc + b, l) :: cumPairs rest (acc + b)

/-- Modelled from the spec: the decoding described in sections 4.2 and 8 —
walk the `(byte-increment, line-increment)` pairs accumulating a byte offset
and a line number starting from the first line of the code, and stop
advancing the line number once the accumulated byte offset strictly exceeds
the instruction cursor.  Stated here as: the first line plus the sum of the
line increments of the entries whose accumulated byte offset does not exceed
the cursor. -/
def spec_line_number (co_lnotab : List Nat) (co_firstlineno : Nat) (f_lasti : Nat) : Nat :=
  co_firstlineno +
    ((((cumPairs (lnotab_pairs co_lnotab) 0).takeWhile
      (fun p => p.1 ≤ f_lasti)).map Prod.snd).sum)

/-! ## Generators (`Generator`, lines 337-359)

The dispatch loop (`vm.resume_frame`) is external: it is modelled as a
function from the generator state it can see (the flags and the held frame's
value stack) to the value it returns, the frame stack it leaves behind and
the `finished` flag it leaves on the generator (byterun's dispatch loop sets
`generator.finished` when the held frame returns). -/

/-- The mutable state of a `Generator` (lines 338-342) together with the
value stack of the held frame `gi_frame`. -/
structure GenState where
  first : Bool
  finished : Bool
  frameStack : List Value

/-- What a call into `vm.resume_frame` produces: the returned value, the
frame's value stack afterwards, and the generator's `finished` flag
afterwards. -/
structure ResumeOutcome where
  retval : Value
  stack : List Value
  finished : Bool

/-- The observable outcome of `Generator.next`: the result delivered to the
caller (`Except.error ()` models raising `StopIteration`), the generator
state afterwards, and — when the dispatch loop was re-entered on the held
frame — the frame's value stack at the moment `vm.resume_frame` was called
(`none` would mean the dispatch loop was not re-entered). -/
structure NextOutcome where
  result : Except Unit Value
  state : GenState
  resumedWith : Option (List Value)

/-- `Generator.next` (lines 347-357): unless this is the very first
resumption, push `None` onto the held frame's value stack; clear `first`;
call `vm.resume_frame` on the held frame — unconditionally; then, if the
`finished` flag is set (the dispatch loop may have just set it), raise
`StopIteration`, else return the value the dispatch loop produced. -/
def Generator_next (resume : GenState → ResumeOutcome) (g : GenState) : NextOutcome :=
  let stack1 := if g.first then g.frameStack else g.frameStack ++ [Value.vnone]
  let r := resume ⟨false, g.finished, stack1⟩
  ⟨if r.finished then Except.error () else Except.ok r.retval,
   ⟨false, r.finished, r.stack⟩, some stack1⟩


/-! ## Theorems -/

theorem totalLen_removeCand_le (c : Nat) (seqs : List (List Nat)) :
    totalLen (removeCand c seqs) ≤ totalLen seqs := by
  induction seqs with
  | nil => simp [removeCand, totalLen]
  | cons s rest ih =>
    simp only [removeCand, totalLen, List.map_cons, List.sum_cons] at *
    apply Nat.add_le_add _ ih
    by_cases h : s.head? = some c
    · rw [if_pos h, List.length_tail]
      exact Nat.sub_le _ _
    · rw [if_neg h]

theorem totalLen_removeCand_lt (c : Nat) :
    ∀ (seqs : List (List Nat)), (∃ s ∈ seqs, s.head? = some c) →
    totalLen (removeCand c seqs) < totalLen seqs := by
  intro seqs
  induction seqs with
  | nil => intro h; simp at h
  | cons s rest ih =>
    intro h
    rcases h with ⟨t, ht, hhead⟩
    simp only [removeCand, totalLen, List.map_cons, List.sum_cons]
    rcases List.mem_cons.mp ht with rfl | ht2
    · rw [if_pos hhead]
      apply Nat.add_lt_add_of_lt_of_le
      · rw [List.length_tail]
        cases t with
        | nil => simp at hhead
        | cons a t2 => simp
      · exact totalLen_removeCand_le c rest
    · apply Nat.add_lt_add_of_le_of_lt
      · by_cases hs : s.head? = some c
        · rw [if_pos hs, List.length_tail]
          exact Nat.sub_le _ _
        · rw [if_neg hs]
      · exact ih ⟨t, ht2, hhead⟩

theorem findCand_mem_head (seqs : List (List Nat)) (c : Nat)
    (h : findCand seqs = some c) : ∃ s ∈ seqs, s.head? = some c := by
  have hm : c ∈ seqs.filterMap List.head? := List.mem_of_find?_eq_some h
  exact List.mem_filterMap.mp hm

theorem mro_merge_fuel_no_fuel_error (fuel : Nat) :
    ∀ (res : List Nat) (seqs : List (List Nat)), totalLen seqs < fuel →
    mro_merge_fuel fuel res seqs ≠ .error .outOfFuel := by
  induction fuel with
  | zero => intro res seqs h; omega
  | succ n ih =>
    intro res seqs hfuel
    simp only [mro_merge_fuel]
    by_cases hall : seqs.all List.isEmpty
    · simp [hall]
    · rw [if_neg hall]
      cases hc : findCand seqs with
      | none => simp
      | some cand =>
        apply ih
        have hlt := totalLen_removeCand_lt cand seqs (findCand_mem_head seqs cand hc)
        omega

/-- The fuel supplied by `mro_merge` is never exhausted: the only error the
merge produces is the illegal-inheritance `TypeError`. -/
theorem mro_merge_no_fuel_error (seqs : List (List Nat)) :
    mro_merge seqs ≠ .error .outOfFuel :=
  mro_merge_fuel_no_fuel_error _ [] seqs (Nat.lt_succ_self _)

theorem mro_merge_fuel_sublist (fuel : Nat) :
    ∀ (res : List Nat) (seqs : List (List Nat)) (r : List Nat),
    mro_merge_fuel fuel res seqs = .ok r →
    ∃ t, r = res ++ t ∧ ∀ s ∈ seqs, s.Sublist t := by
  induction fuel with
  | zero => intro res seqs r h; simp [mro_merge_fuel] at h
  | succ n ih =>
    intro res seqs r h
    simp only [mro_merge_fuel] at h
    by_cases hall : seqs.all List.isEmpty
    · rw [if_pos hall] at h
      simp only [Except.ok.injEq] at h
      subst h
      refine ⟨[], by simp, ?_⟩
      intro s hs
      have : s.isEmpty := List.all_eq_true.mp hall s hs
      simp [List.isEmpty_iff.mp this]
    · rw [if_neg hall] at h
      cases hc : findCand seqs with
      | none => rw [hc] at h; simp at h
      | some cand =>
        rw [hc] at h
        obtain ⟨t1, ht1, hs1⟩ := ih (res ++ [cand]) (removeCand cand seqs) r h
        refine ⟨cand :: t1, by simp [ht1], ?_⟩
        intro s hsmem
        have hmem2 : (if s.head? = some cand then s.tail else s) ∈ removeCand cand seqs := by
          simp only [removeCand]
          exact List.mem_map.mpr ⟨s, hsmem, rfl⟩
        have hsub := hs1 _ hmem2
        by_cases hh : s.head? = some cand
        · rw [if_pos hh] at hsub
          cases s with
          | nil => simp at hh
          | cons a s2 =>
            have ha : a = cand := by
              simp only [List.head?_cons, Option.some.injEq] at hh
              exact hh
            subst ha
            exact List.Sublist.cons₂ a hsub
        · rw [if_neg hh] at hsub
          exact List.Sublist.cons cand hsub

theorem goodHead_fresh (c : Nat) (baseMros : List (List Nat)) (bases : List Nat)
    (hanc : ∀ m ∈ baseMros, c ∉ m) (hb : c ∉ bases) :
    goodHead ([c] :: (baseMros ++ [bases])) c = true := by
  simp only [goodHead, List.all_eq_true]
  intro s hs
  have hnot : c ∉ s.tail := by
    rcases List.mem_cons.mp hs with rfl | hs1
    · simp
    · rcases List.mem_append.mp hs1 with hsb | hs2
      · exact fun hm => hanc s hsb ((List.tail_sublist s).mem hm)
      · have hsb : s = bases := List.mem_singleton.mp hs2
        subst hsb
        exact fun hm => hb ((List.tail_sublist s).mem hm)
  simpa using hnot

theorem findCand_fresh (c : Nat) (baseMros : List (List Nat)) (bases : List Nat)
    (hanc : ∀ m ∈ baseMros, c ∉ m) (hb : c ∉ bases) :
    findCand ([c] :: (baseMros ++ [bases])) = some c := by
  have hgood := goodHead_fresh c baseMros bases hanc hb
  simp only [findCand, List.filterMap_cons, List.head?_cons]
  exact List.find?_cons_of_pos _ hgood

theorem mro_merge_sublist (seqs : List (List Nat)) (r : List Nat)
    (h : mro_merge seqs = .ok r) : ∀ s ∈ seqs, s.Sublist r := by
  unfold mro_merge at h
  obtain ⟨t, ht, hs⟩ := mro_merge_fuel_sublist _ _ _ _ h
  intro s hsm
  have hst := hs s hsm
  simpa [ht] using hst

theorem mro_merge_head_of_findCand (seqs : List (List Nat)) (c : Nat) (r : List Nat)
    (hc : findCand seqs = some c) (h : mro_merge seqs = .ok r) :
    r.head? = some c := by
  unfold mro_merge at h
  simp only [mro_merge_fuel] at h
  by_cases hall : seqs.all List.isEmpty
  · exfalso
    have hnil : seqs.filterMap List.head? = [] := by
      rw [List.filterMap_eq_nil_iff]
      intro s hsm
      have hse := List.all_eq_true.mp hall s hsm
      rw [List.isEmpty_iff.mp hse]
      rfl
    rw [findCand, hnil] at hc
    simp at hc
  · rw [if_neg hall, hc] at h
    obtain ⟨t, ht, _⟩ := mro_merge_fuel_sublist _ _ _ _ h
    rw [ht]
    simp

/-- C2: for a class `c` built over a consistent hierarchy — `c` is fresh, so
it occurs in no base mro and not among the bases — a successful C3 merge
computed at class-construction time places `c` first (hence before all of
its ancestors), and preserves each base mro's own ancestor order as well as
the declared base order (each is a sublist of the result); in particular for
`A = 0`, `B = 1` with base `A`, `C = 2` with base `A`, `D = 3` with bases
`B, C`, the linearization of `D` is exactly `D, B, C, A`. -/
theorem C2_c3_linearization (c : Nat) (baseMros : List (List Nat)) (bases : List Nat)
    (r : List Nat) (hok : compute_mro c baseMros bases = .ok r)
    (hanc : ∀ m ∈ baseMros, c ∉ m) (hb : c ∉ bases) :
    r.head? = some c ∧ (∀ m ∈ baseMros, m.Sublist r) ∧ bases.Sublist r ∧
    compute_mro 3 [[1, 0], [2, 0]] [1, 2] = .ok [3, 1, 2, 0] := by
  have hshape : [[c]] ++ baseMros ++ [bases] = [c] :: (baseMros ++ [bases]) := by
    simp
  have hok2 : mro_merge ([c] :: (baseMros ++ [bases])) = .ok r := by
    rw [← hshape]
    exact hok
  refine ⟨?_, ?_, ?_, rfl⟩
  · exact mro_merge_head_of_findCand _ c r (findCand_fresh c baseMros bases hanc hb) hok2
  · intro m hm
    exact mro_merge_sublist _ r hok2 m (by simp [hm])
  · exact mro_merge_sublist _ r hok2 bases (by simp)

theorem C2_c3_linearization_witness :
    ([3, 1, 2, 0] : List Nat).head? = some 3 ∧
    (∀ m ∈ [[1, 0], [2, 0]], List.Sublist m [3, 1, 2, 0]) ∧
    List.Sublist [1, 2] [3, 1, 2, 0] ∧
    compute_mro 3 [[1, 0], [2, 0]] [1, 2] = .ok [3, 1, 2, 0] :=
  C2_c3_linearization 3 [[1, 0], [2, 0]] [1, 2] [3, 1, 2, 0] rfl
    (by decide) (by decide)

/-- C3: when no consistent C3 linearization exists for the declared bases —
the merge the constructor runs reports an error — class construction itself
(`Class.__init__`, which computes `__mro__` before the class becomes usable)
fails with the illegal-inheritance `TypeError`; the failure is the
construction-time one (the fuel artifact is excluded by
`mro_merge_no_fuel_error`), so it is never deferred to a later attribute
lookup, which only ever runs on a successfully constructed class.  In
particular, with `A = 0`, `B = 1`, `C = 2` with bases `(A, B)` and `D = 3`
with bases `(B, A)`, constructing `E = 4` over bases `(C, D)` fails. -/
theorem C3_inconsistent_bases_fail (c : Nat) (bases : List (Nat × List Nat))
    (h : ∃ e, compute_mro c (bases.map Prod.snd) (bases.map Prod.fst) = .error e) :
    Class_init_mro c bases = .error .illegal ∧
    Class_init_mro 4 [(2, [2, 0, 1]), (3, [3, 1, 0])] = .error .illegal := by
  obtain ⟨e, he⟩ := h
  refine ⟨?_, rfl⟩
  cases e with
  | illegal => exact he
  | outOfFuel => exact absurd he (mro_merge_no_fuel_error _)

theorem C3_inconsistent_bases_fail_witness :
    Class_init_mro 4 [(2, [2, 0, 1]), (3, [3, 1, 0])] = .error .illegal :=
  (C3_inconsistent_bases_fail 4 [(2, [2, 0, 1]), (3, [3, 1, 0])]
    ⟨MroErr.illegal, rfl⟩).1

theorem line_walk_eq_cum (f_lasti : Nat) (pairs : List (Nat × Nat)) :
    ∀ (byte_num line_num : Nat),
    line_walk f_lasti pairs byte_num line_num
      = line_num + (((cumPairs pairs byte_num).takeWhile
          (fun p => p.1 ≤ f_lasti)).map Prod.snd).sum := by
  induction pairs with
  | nil => intro b l; simp [line_walk, cumPairs]
  | cons p rest ih =>
    intro b l
    cases p with
    | mk bi li =>
      simp only [line_walk, cumPairs]
      by_cases hgt : b + bi > f_lasti
      · rw [if_pos hgt]
        have hstop : ¬ (b + bi ≤ f_lasti) := by omega
        simp [List.takeWhile_cons, hstop]
      · rw [if_neg hgt]
        have hgo : b + bi ≤ f_lasti := by omega
        rw [ih (b + bi) (l + li)]
        simp [List.takeWhile_cons, hgo]
        omega

/-- C7: `line_number` is a pure decoding of the delta table and agrees with
the decoding the spec describes — walk the `(byte-increment,
line-increment)` pairs accumulating a byte offset and a line number from the
first line of the code, and stop advancing the line number once the
accumulated byte offset strictly exceeds the instruction cursor
(`spec_line_number`); for the table `[4, 2, 5, 3]` encoding lines 10, 12, 15
at byte offsets 0, 4, 9, a cursor at byte 6 yields line 12 and a cursor at
byte 9 yields line 15. -/
theorem C7_line_number_decoding (co_lnotab : List Nat) (co_firstlineno f_lasti : Nat) :
    line_number co_lnotab co_firstlineno f_lasti
      = spec_line_number co_lnotab co_firstlineno f_lasti ∧
    line_number [4, 2, 5, 3] 10 6 = 12 ∧
    line_number [4, 2, 5, 3] 10 9 = 15 := by
  refine ⟨?_, rfl, rfl⟩
  rw [line_number, spec_line_number, line_walk_eq_cum]

theorem dictGet_dictSet_same {β : Type} (t : List (String × β)) (k : String) (v : β) :
    dictGet (dictSet t k v) k = some v := by
  induction t with
  | nil => simp [dictGet, dictSet]
  | cons p rest ih =>
    cases p with
    | mk k1 v1 =>
      by_cases h : k1 = k
      · simp [dictSet, dictGet, h]
      · simp [dictSet, dictGet, h, ih]

theorem dictGet_dictSet_other {β : Type} (t : List (String × β)) (k k2 : String) (v : β)
    (hne : k ≠ k2) : dictGet (dictSet t k v) k2 = dictGet t k2 := by
  induction t with
  | nil => simp [dictGet, dictSet, hne]
  | cons p rest ih =>
    cases p with
    | mk k1 v1 =>
      by_cases h : k1 = k
      · subst h
        simp [dictSet, dictGet, hne]
      · simp only [dictSet, if_neg h, dictGet]
        by_cases h2 : k1 = k2
        · simp [h2]
        · simp [h2, ih]

theorem wire_freevars_not_mem (var : String) :
    ∀ (freevars : List String) (backCells selfCells res : List (String × Nat)),
    wire_freevars freevars backCells selfCells = some res → var ∉ freevars →
    dictGet res var = dictGet selfCells var := by
  intro freevars
  induction freevars with
  | nil =>
    intro backCells selfCells res h hnm
    simp only [wire_freevars, Option.some.injEq] at h
    rw [← h]
  | cons v rest ih =>
    intro backCells selfCells res h hnm
    simp only [wire_freevars] at h
    cases hb : dictGet backCells v with
    | none => rw [hb] at h; simp at h
    | some cid =>
      rw [hb] at h
      have hv : var ≠ v := fun he => hnm (he ▸ List.mem_cons_self v rest)
      rw [ih backCells _ res h (fun hm => hnm (List.mem_cons_of_mem v hm))]
      exact dictGet_dictSet_other selfCells v var cid (fun he => hv he.symm)

theorem wire_freevars_copies (var : String) (cid : Nat) :
    ∀ (freevars : List String) (backCells selfCells res : List (String × Nat)),
    wire_freevars freevars backCells selfCells = some res →
    var ∈ freevars → dictGet backCells var = some cid →
    dictGet res var = some cid := by
  intro freevars
  induction freevars with
  | nil => intro _ _ _ _ hm; simp at hm
  | cons v rest ih =>
    intro backCells selfCells res h hm hback
    simp only [wire_freevars] at h
    rcases List.mem_cons.mp hm with rfl | hm2
    · rw [hback] at h
      by_cases hr : var ∈ rest
      · exact ih backCells _ res h hr hback
      · rw [wire_freevars_not_mem var rest backCells _ res h hr]
        exact dictGet_dictSet_same selfCells var cid
    · cases hb : dictGet backCells v with
      | none => rw [hb] at h; simp at h
      | some cid2 =>
        rw [hb] at h
        exact ih backCells _ res h hm2 hback

/-- C4: a write through a `Cell` is seen by every holder of that cell — the
cell is a single shared box, not a private copy — and the free-variable
wiring of `Frame.__init__` copies the cell REFERENCE out of the caller's
cell table, so the new frame's cell table maps the variable to the very same
cell the caller's table holds, and an inner frame's `get` observes the outer
frame's later `set` through it. -/
theorem C4_cell_sharing (ctx : CellCtx) (cid : Nat) (v : Value)
    (freevars : List String) (backCells selfCells res : List (String × Nat))
    (var : String) (hw : wire_freevars freevars backCells selfCells = some res)
    (hmem : var ∈ freevars) (hback : dictGet backCells var = some cid) :
    dictGet res var = some cid ∧ Cell_get (Cell_set ctx cid v) cid = v := by
  refine ⟨wire_freevars_copies var cid freevars backCells selfCells res hw hmem hback, ?_⟩
  simp [Cell_get, Cell_set]

theorem C4_cell_sharing_witness :
    dictGet [("n", 0)] "n" = some 0 ∧
    Cell_get (Cell_set ⟨fun _ => Value.vnone, 1⟩ 0 (Value.vint 2)) 0 = Value.vint 2 :=
  C4_cell_sharing ⟨fun _ => Value.vnone, 1⟩ 0 (Value.vint 2) ["n"] [("n", 0)] []
    [("n", 0)] "n" rfl (List.mem_singleton.mpr rfl) rfl

/-- C8 counterexample: for a root frame whose local and global namespaces
carry DIFFERENT "__builtins__" entries, `Frame.__init__` takes the entry of
`f_locals` (line 283), not the one of `f_globals`; the claim that a root
frame takes its built-ins from the global namespace fails at this input. -/
theorem C8_root_builtins_counterexample :
    (Frame_init [("__builtins__", Value.vint 2)] [("__builtins__", Value.vint 1)]
        none).map Frame.f_builtins = some (Value.vint 1) ∧
    dictGet [("__builtins__", Value.vint 2)] "__builtins__" = some (Value.vint 2) ∧
    ¬ ((Frame_init [("__builtins__", Value.vint 2)] [("__builtins__", Value.vint 1)]
        none).map Frame.f_builtins = some (Value.vint 2)) := by
  refine ⟨rfl, rfl, ?_⟩
  intro h
  simp [Frame_init, dictGet, hasDunderDict] at h

/-- C8 amended: a frame constructed with a caller frame inherits the caller
built-ins namespace unchanged; a ROOT frame takes its built-ins from the
reserved "__builtins__" entry of the LOCAL namespace (not the global one),
unwrapped to its `__dict__` when it is a module-like object.  (A root frame
whose locals lack the entry fails construction with a `KeyError`.) -/
theorem C8_builtins_amended (f_globals f_locals : List (String × Value))
    (back : Frame) (b : Value)
    (hloc : dictGet f_locals "__builtins__" = some b) :
    (Frame_init f_globals f_locals (some back)).map Frame.f_builtins
        = some back.f_builtins ∧
    (Frame_init f_globals f_locals none).map Frame.f_builtins
        = some (if hasDunderDict b then moduleDict b else b) := by
  refine ⟨rfl, ?_⟩
  simp [Frame_init, hloc]

theorem C8_builtins_amended_witness :
    (Frame_init [] [("__builtins__", Value.vmodule [("len", Value.vint 0)])]
        (some ⟨[], [], Value.vint 7, []⟩)).map Frame.f_builtins
        = some (Value.vint 7) ∧
    (Frame_init [] [("__builtins__", Value.vmodule [("len", Value.vint 0)])]
        none).map Frame.f_builtins
        = some (if hasDunderDict (Value.vmodule [("len", Value.vint 0)])
                then moduleDict (Value.vmodule [("len", Value.vint 0)])
                else Value.vmodule [("len", Value.vint 0)]) :=
  C8_builtins_amended [] [("__builtins__", Value.vmodule [("len", Value.vint 0)])]
    ⟨[], [], Value.vint 7, []⟩ (Value.vmodule [("len", Value.vint 0)]) rfl

/-- C1: at the failing input — a class whose mro resolves `x` to a data
descriptor while the instance storage also holds `x` — `Object.__getattr__`
does invoke the descriptor and never returns the stored instance value, but
it invokes the `__get__` with the instance and the attribute NAME (the
string `"x"`, line 198), not with the instance and the class as the claim
and the parallel non-data case (line 210) state. -/
theorem C1_data_descriptor_get_receives_name :
    Object_getattr "K" [("K", [("x", Value.vdesc true true 0)])] [("x", Value.vint 5)] "x"
      = some (Value.vcallGet (Value.vdesc true true 0)
          (Value.vobj "K" [("K", [("x", Value.vdesc true true 0)])] [("x", Value.vint 5)])
          (Value.vstr "x")) ∧
    ¬ (Object_getattr "K" [("K", [("x", Value.vdesc true true 0)])]
        [("x", Value.vint 5)] "x" = some (Value.vint 5)) ∧
    ¬ (Object_getattr "K" [("K", [("x", Value.vdesc true true 0)])]
        [("x", Value.vint 5)] "x"
      = some (Value.vcallGet (Value.vdesc true true 0)
          (Value.vobj "K" [("K", [("x", Value.vdesc true true 0)])] [("x", Value.vint 5)])
          (Value.vclass "K" [("K", [("x", Value.vdesc true true 0)])]))) := by
  refine ⟨rfl, ?_, ?_⟩
  · intro h
    exact Value.noConfusion (Option.some.inj h)
  · intro h
    have h2 := Option.some.inj h
    injection h2 with ha hb hc
    exact Value.noConfusion hc

/-- C9 counterexample: a `Function` stored as a class attribute and accessed
through the class itself does NOT come back unchanged: under the PY2 regime
in which this class model runs, `Function.__get__(None, cls)` wraps it into
an unbound `Method`. -/
theorem C9_class_access_counterexample :
    Class_getattr "K" [("K", [("f", Value.vfun 7)])] "f"
      = some (Value.vmeth Value.vnone (Value.vclass "K" [("K", [("f", Value.vfun 7)])]) 7) ∧
    ¬ (Class_getattr "K" [("K", [("f", Value.vfun 7)])] "f" = some (Value.vfun 7)) := by
  refine ⟨rfl, ?_⟩
  intro h
  exact Value.noConfusion (Option.some.inj h)

/-- C9 amended: a `Function` stored as a class attribute and accessed
through an instance (whose own storage does not shadow the name) yields a
`Method` bound to that instance, carrying the instance, the class and the
function; accessed through the class itself it yields an UNBOUND `Method`
(`im_self` is `None`) carrying the class and the function — not the bare
`Function` — because the class model runs under PY2. -/
theorem C9_function_binding_amended (cname : String) (mro : Mro)
    (locs : List (String × Value)) (name : String) (fid : Nat)
    (hres : resolve_attr mro name = some (.vfun fid))
    (hloc : dictGet locs name = none) :
    Object_getattr cname mro locs name
      = some (.vmeth (.vobj cname mro locs) (.vclass cname mro) fid) ∧
    Class_getattr cname mro name = some (.vmeth .vnone (.vclass cname mro) fid) := by
  constructor
  · simp [Object_getattr, hres, hloc, hasGet, hasSet, dunder_get, Function_get]
  · simp [Class_getattr, hres, hasGet, dunder_get, Function_get]

theorem C9_function_binding_amended_witness :
    Object_getattr "K" [("K", [("f", Value.vfun 7)])] [] "f"
      = some (Value.vmeth (Value.vobj "K" [("K", [("f", Value.vfun 7)])] [])
          (Value.vclass "K" [("K", [("f", Value.vfun 7)])]) 7) ∧
    Class_getattr "K" [("K", [("f", Value.vfun 7)])] "f"
      = some (Value.vmeth Value.vnone (Value.vclass "K" [("K", [("f", Value.vfun 7)])]) 7) :=
  C9_function_binding_amended "K" [("K", [("f", Value.vfun 7)])] [] "f" 7 rfl rfl

/-- C10: calling a `Class` resolves `__init__` by RAW lookup along the
linearization (`resolve_attr`, no descriptor `__get__` dispatch: the callee
is the resolved value itself) and calls it with the freshly allocated
instance — empty per-instance storage — prepended to the positional
arguments; when no class in the linearization defines `__init__`, the
`AttributeError` escapes and no initialized instance is produced. -/
theorem C10_init_resolution (cname : String) (mro : Mro) (args : List Value)
    (kwargs : List (String × Value)) :
    (resolve_attr mro "__init__" = none →
      Object_init_call cname mro args kwargs = none) ∧
    (∀ v, resolve_attr mro "__init__" = some v →
      Object_init_call cname mro args kwargs
        = some ⟨v, Value.vobj cname mro [] :: args, kwargs⟩) := by
  constructor
  · intro h
    simp [Object_init_call, h]
  · intro v h
    simp [Object_init_call, h]

theorem C10_init_resolution_witness :
    Object_init_call "K" [("K", [("__init__", Value.vfun 9)])] [Value.vint 1] []
      = some ⟨Value.vfun 9,
          [Value.vobj "K" [("K", [("__init__", Value.vfun 9)])] [], Value.vint 1], []⟩ ∧
    Object_init_call "E" [("E", [])] [] [] = none :=
  ⟨(C10_init_resolution "K" [("K", [("__init__", Value.vfun 9)])] [Value.vint 1] []).2
      (Value.vfun 9) rfl,
   (C10_init_resolution "E" [("E", [])] [] []).1 rfl⟩

/-- C5 counterexample: resuming a FINISHED generator (here with a dispatch
loop that returns leaving the finished flag as it found it) does push `None`
onto the held frame's value stack and does re-enter the dispatch loop on the
frame: `resumedWith` is `some` (with the pushed `None`), refuting the claim
that the frame receives no push and the dispatch loop is not re-entered. -/
theorem C5_finished_resume_counterexample :
    (⟨false, true, ([] : List Value)⟩ : GenState).finished = true ∧
    (Generator_next (fun s => ⟨Value.vnone, s.frameStack, s.finished⟩)
        ⟨false, true, []⟩).resumedWith = some [Value.vnone] ∧
    ¬ ((Generator_next (fun s => ⟨Value.vnone, s.frameStack, s.finished⟩)
        ⟨false, true, []⟩).resumedWith = none) := by
  refine ⟨rfl, rfl, ?_⟩
  intro h
  have h2 : some [Value.vnone] = (none : Option (List Value)) := h
  exact Option.noConfusion h2

/-- C5 amended: resuming a finished generator still pushes `None` onto the
held frame's value stack (the resumption is not the first) and re-enters the
dispatch loop on that frame; only afterwards, the finished flag still being
set when the dispatch loop returns, is `StopIteration` raised to the caller.
Exhaustion is signaled, but only after a genuine resume attempt. -/
theorem C5_finished_resume_amended (resume : GenState → ResumeOutcome) (g : GenState)
    (_hfin : g.finished = true) (hfirst : g.first = false)
    (hpres : (resume ⟨false, g.finished, g.frameStack ++ [Value.vnone]⟩).finished = true) :
    (Generator_next resume g).result = Except.error () ∧
    (Generator_next resume g).resumedWith = some (g.frameStack ++ [Value.vnone]) := by
  simp [Generator_next, hfirst, hpres]

theorem C5_finished_resume_amended_witness :
    (Generator_next (fun s => ⟨Value.vnone, s.frameStack, s.finished⟩)
        ⟨false, true, [Value.vint 3]⟩).result = Except.error () ∧
    (Generator_next (fun s => ⟨Value.vnone, s.frameStack, s.finished⟩)
        ⟨false, true, [Value.vint 3]⟩).resumedWith
        = some ([Value.vint 3] ++ [Value.vnone]) :=
  C5_finished_resume_amended (fun s => ⟨Value.vnone, s.frameStack, s.finished⟩)
    ⟨false, true, [Value.vint 3]⟩ rfl rfl rfl

/-- C6: the very first resumption of a generator hands the held frame's
value stack to the dispatch loop untouched — no resume-value is injected —
while every subsequent resumption first pushes the resume-value (`None`, the
one `next()` sends) onto the frame's value stack and then asks the dispatch
loop to resume the frame; after any resumption the generator is no longer in
its first-call state. -/
theorem C6_resume_value_injection (resume : GenState → ResumeOutcome) (g : GenState) :
    (g.first = true → (Generator_next resume g).resumedWith = some g.frameStack) ∧
    (g.first = false →
      (Generator_next resume g).resumedWith = some (g.frameStack ++ [Value.vnone])) ∧
    (Generator_next resume g).state.first = false := by
  refine ⟨?_, ?_, rfl⟩
  · intro h
    simp [Generator_next, h]
  · intro h
    simp [Generator_next, h]

theorem C6_resume_value_injection_witness :
    (Generator_next (fun s => ⟨Value.vint 42, s.frameStack, s.finished⟩)
        ⟨true, false, [Value.vint 3]⟩).resumedWith = some [Value.vint 3] ∧
    (Generator_next (fun s => ⟨Value.vint 42, s.frameStack, s.finished⟩)
        ⟨false, false, [Value.vint 3]⟩).resumedWith
        = some ([Value.vint 3] ++ [Value.vnone]) :=
  ⟨(C6_resume_value_injection (fun s => ⟨Value.vint 42, s.frameStack, s.finished⟩)
      ⟨true, false, [Value.vint 3]⟩).1 rfl,
   (C6_resume_value_injection (fun s => ⟨Value.vint 42, s.frameStack, s.finished⟩)
      ⟨false, false, [Value.vint 3]⟩).2.1 rfl⟩
